import Mathlib

/-!
Shallow embedding of the Google Workspace MCP server's content-extraction,
rendering, sorting and error-classification layer, together with proofs of
the specified properties.

Conventions used throughout:
* TypeScript strings are modelled by Lean `String` (character level; the
  UTF-16 code-unit view of JS strings is not modelled).
* `undefined`/absent fields are modelled by `Option`.
* JS truthiness on strings (`""` is falsy) is modelled by `jsOrStr` /
  `truthyStr`.
* Byte buffers (`Buffer`) are modelled by `List Nat` with every entry `< 256`.
-/

namespace GWS

/-- Models `Array.prototype.join(sep)` on a list of strings. -/
def jsJoin (sep : String) : List String → String
| [] => ""
| [a] => a
| a :: b :: rest => a ++ sep ++ jsJoin sep (b :: rest)

/-- Models `String.prototype.substring(0, n)` (character level). -/
def jsSubstring (s : String) (n : Nat) : String := String.mk (s.data.take n)

/-- Models `a || b` on an optional string `a`: the fallback is used when the
field is absent or the empty string (JS falsiness). -/
def jsOrStr (a : Option String) (b : String) : String :=
  match a with
  | some s => if s = "" then b else s
  | none => b

/-- Models the truthiness test `if (x)` on an optional string: yields the
string only when present and non-empty. -/
def truthyStr (a : Option String) : Option String :=
  match a with
  | some s => if s = "" then none else some s
  | none => none

/-- Models `String.prototype.includes(sub)`. -/
def jsIncludes (s sub : String) : Bool := decide (sub.data <:+: s.data)

/-- Models `String.prototype.startsWith(pre)` (character level). -/
def jsStartsWith (s pre : String) : Bool := decide (pre.data <+: s.data)

/-- A thrown JavaScript value as seen by the error classifier: either an
`Error` object carrying a `message`, or any other value together with its
`String(...)` coercion. -/
inductive JsError where
| error (message : String)
| nonError (coerced : String)
deriving DecidableEq, Repr

/-- Embedding of `handleGoogleError` (src/services/google-auth.ts lines
49-73): substring classification of the failure message in fixed priority
order. -/
def handleGoogleError : JsError → String
| .error message =>
  if jsIncludes message "401" || jsIncludes message "invalid_grant" then
    "Error: Authentication failed. Please check your Google OAuth credentials and refresh token."
  else if jsIncludes message "403" then
    "Error: Permission denied. Ensure the OAuth token has the required scopes (documents, drive)."
  else if jsIncludes message "404" then
    "Error: Resource not found. Please check the document or comment ID."
  else if jsIncludes message "429" then
    "Error: Rate limit exceeded. Please wait before making more requests."
  else if jsIncludes message "400" then
    "Error: Invalid request. " ++ message
  else
    "Error: " ++ message
| .nonError coerced => "Error: Unexpected error occurred: " ++ coerced

/-! ### Base64 (Node `Buffer.from(_, "base64")` / `buf.toString("base64")`) -/

/-- The standard base64 alphabet, index 0-63. -/
def b64Alphabet : List Char :=
  "ABCDEFGHIJKLMNOPQRSTUVWXYZabcdefghijklmnopqrstuvwxyz0123456789+/".data

/-- Character for a 6-bit group. -/
def sextetToChar (n : Nat) : Char := b64Alphabet.getD n '?'

/-- Whether a character belongs to the standard base64 alphabet (padding
excluded). -/
def isB64Char (c : Char) : Bool := b64Alphabet.contains c

/-- 6-bit value of an alphabet character. -/
def charToSextet (c : Char) : Nat := b64Alphabet.indexOf c

/-- Byte list to 6-bit groups (no padding), 3 bytes to 4 sextets. -/
def b64EncodeSextets : List Nat → List Nat
| [] => []
| [b0] => [b0 / 4, b0 % 4 * 16]
| [b0, b1] => [b0 / 4, b0 % 4 * 16 + b1 / 16, b1 % 16 * 4]
| b0 :: b1 :: b2 :: rest =>
  b0 / 4 :: (b0 % 4 * 16 + b1 / 16) :: (b1 % 16 * 4 + b2 / 64) :: b2 % 64 ::
    b64EncodeSextets rest

/-- 6-bit groups back to bytes, 4 sextets to 3 bytes; a trailing group of 2
or 3 sextets yields 1 or 2 bytes, a lone trailing sextet is dropped. -/
def b64DecodeSextets : List Nat → List Nat
| [] => []
| [_] => []
| [s0, s1] => [s0 * 4 + s1 / 16]
| [s0, s1, s2] => [s0 * 4 + s1 / 16, s1 % 16 * 16 + s2 / 4]
| s0 :: s1 :: s2 :: s3 :: rest =>
  (s0 * 4 + s1 / 16) :: (s1 % 16 * 16 + s2 / 4) :: (s2 % 4 * 64 + s3) ::
    b64DecodeSextets rest

/-- Number of `=` padding characters for a payload of `n` bytes. -/
def b64PadLen (n : Nat) : Nat :=
  match n % 3 with
  | 1 => 2
  | 2 => 1
  | _ => 0

/-- Standard base64 encoding of a byte list, with `=` padding. Models
`Buffer.prototype.toString("base64")`. -/
def stdB64Encode (bs : List Nat) : List Char :=
  (b64EncodeSextets bs).map sextetToChar ++ List.replicate (b64PadLen bs.length) '='

/-- Base64 decoding of a character list to bytes. Models
`Buffer.from(str, "base64")`: characters outside the alphabet (including
the `=` padding) are ignored. -/
def nodeB64Decode (cs : List Char) : List Nat :=
  b64DecodeSextets ((cs.filter isB64Char).map charToSextet)

/-! ### UTF-8 decoding (Node `buf.toString("utf-8")`) -/

/-- The U+FFFD replacement character emitted for invalid sequences. -/
def uRepl : Char := Char.ofNat 0xFFFD

/-- Whether a byte is a UTF-8 continuation byte. -/
def isCont (b : Nat) : Bool := 0x80 ≤ b && b < 0xC0

/-- Worker for `utf8Decode`: the fuel argument only forces termination and
is always called with at least the length of the byte list, so it never
runs out (each produced character consumes at least one byte). -/
def utf8DecodeAux : Nat → List Nat → List Char
| 0, _ => []
| _ + 1, [] => []
| fuel + 1, b :: rest =>
  if b < 0x80 then Char.ofNat b :: utf8DecodeAux fuel rest
  else if b < 0xC2 then uRepl :: utf8DecodeAux fuel rest
  else if b < 0xE0 then
    match rest with
    | b1 :: rest2 =>
      if isCont b1 then Char.ofNat ((b - 0xC0) * 0x40 + (b1 - 0x80)) :: utf8DecodeAux fuel rest2
      else uRepl :: utf8DecodeAux fuel rest
    | [] => [uRepl]
  else if b < 0xF0 then
    match rest with
    | b1 :: b2 :: rest3 =>
      if isCont b1 && isCont b2 && (b ≠ 0xE0 || 0xA0 ≤ b1) && (b ≠ 0xED || b1 < 0xA0) then
        Char.ofNat ((b - 0xE0) * 0x1000 + (b1 - 0x80) * 0x40 + (b2 - 0x80)) :: utf8DecodeAux fuel rest3
      else uRepl :: utf8DecodeAux fuel rest
    | _ => uRepl :: utf8DecodeAux fuel rest
  else if b < 0xF5 then
    match rest with
    | b1 :: b2 :: b3 :: rest4 =>
      if isCont b1 && isCont b2 && isCont b3 && (b ≠ 0xF0 || 0x90 ≤ b1) && (b ≠ 0xF4 || b1 < 0x90) then
        Char.ofNat ((b - 0xF0) * 0x40000 + (b1 - 0x80) * 0x1000 + (b2 - 0x80) * 0x40 + (b3 - 0x80)) ::
          utf8DecodeAux fuel rest4
      else uRepl :: utf8DecodeAux fuel rest
    | _ => uRepl :: utf8DecodeAux fuel rest
  else uRepl :: utf8DecodeAux fuel rest

/-- UTF-8 decoding of a byte list; invalid bytes decode to U+FFFD. Models
`Buffer.prototype.toString("utf-8")` (WHATWG-style replacement decoding). -/
def utf8Decode (bs : List Nat) : List Char := utf8DecodeAux bs.length bs

/-- Byte list to Lean string via UTF-8 decoding. -/
def utf8DecodeString (bs : List Nat) : String := String.mk (utf8Decode bs)

/-- Models the first substitution of `decodeBase64` (each dash becomes a
plus) at the character level. -/
def dashToPlus (c : Char) : Char := if c = '-' then '+' else c

/-- Models the second substitution of `decodeBase64` (each underscore
becomes a slash) at the character level. -/
def underscoreToSlash (c : Char) : Char := if c = '_' then '/' else c

/-- Embedding of `decodeBase64` (gmail tools, src lines 655-657):
substitute the URL-safe characters back, base64-decode, then decode the
bytes as UTF-8. -/
def decodeBase64 (data : String) : String :=
  utf8DecodeString (nodeB64Decode ((data.data.map dashToPlus).map underscoreToSlash))

/-- URL-safe base64 encoding of a byte list: standard base64 with `+`
replaced by `-` and `/` by `_` (the scheme named by the spec's round-trip
property; this is the encoder whose output `decodeBase64` reverses). -/
def urlSafeB64Encode (bs : List Nat) : List Char :=
  (stdB64Encode bs).map fun c => if c = '+' then '-' else if c = '/' then '_' else c

/-! ### HTML stripping (gmail `extractBody` fallback) -/

/-- Characters matched by the JS regex class for whitespace (the common
subset: tab, newline, vertical tab, form feed, carriage return, space,
no-break space, BOM). -/
def jsWhitespace (c : Char) : Bool :=
  c = ' ' || c = '\t' || c = '\n' || c = '\r' || c = Char.ofNat 11 ||
    c = Char.ofNat 12 || c = Char.ofNat 0xA0 || c = Char.ofNat 0xFEFF

/-- Suffix strictly after the first `>` character, if any. -/
def dropAfterGt : List Char → Option (List Char)
| [] => none
| c :: rest => if c = '>' then some rest else dropAfterGt rest

/-- Worker for `removeTags`; fuel only forces termination and is always
called with at least the list length. -/
def removeTagsAux : Nat → List Char → List Char
| 0, _ => []
| _ + 1, [] => []
| fuel + 1, c :: rest =>
  if c = '<' then
    match dropAfterGt rest with
    | some rest2 => removeTagsAux fuel rest2
    | none => c :: rest
  else c :: removeTagsAux fuel rest

/-- Models the tag-removal substitution in `extractBody`'s HTML fallback: a
global replace of every angle-bracket-delimited tag (a `<`, any run of
non-`>` characters, then `>`) by the empty string; a `<` with no later `>`
cannot start a match, so the remainder is kept verbatim. -/
def removeTags (l : List Char) : List Char := removeTagsAux l.length l

/-- Worker for `collapseWs`; fuel only forces termination and is always
called with at least the list length. -/
def collapseWsAux : Nat → List Char → List Char
| 0, _ => []
| _ + 1, [] => []
| fuel + 1, c :: rest =>
  if jsWhitespace c then ' ' :: collapseWsAux fuel (rest.dropWhile (jsWhitespace ·))
  else c :: collapseWsAux fuel rest

/-- Models the whitespace-collapsing substitution in `extractBody`'s HTML
fallback: every maximal run of whitespace becomes a single space. -/
def collapseWs (l : List Char) : List Char := collapseWsAux l.length l

/-- Models `String.prototype.trim()`: strip whitespace from both ends. -/
def jsTrim (l : List Char) : List Char :=
  ((l.dropWhile (jsWhitespace ·)).reverse.dropWhile (jsWhitespace ·)).reverse

/-- The HTML fallback post-processing of `extractBody` (src line 677):
remove tags, collapse whitespace runs to single spaces, trim. -/
def stripHtml (s : String) : String :=
  String.mk (jsTrim (collapseWs (removeTags s.data)))

/-! ### Gmail message-part trees and `extractBody` -/

/-- A Gmail message part (`gmail_v1.Schema$MessagePart`), restricted to the
fields `extractBody` reads: `mimeType`, `body.data` (collapsed to one
optional string: `bodyData = none` covers both a missing `body` and a
missing `data`), and `parts`. -/
inductive MessagePart where
| mk (mimeType : Option String) (bodyData : Option String) (parts : Option (List MessagePart))

/-- The `mimeType` field. -/
def MessagePart.mimeType : MessagePart → Option String
| .mk m _ _ => m

/-- The `body.data` field. -/
def MessagePart.bodyData : MessagePart → Option String
| .mk _ d _ => d

/-- The `parts` field. -/
def MessagePart.parts : MessagePart → Option (List MessagePart)
| .mk _ _ p => p

/-- The loop-1 guard of `extractBody`: `part.mimeType === "text/plain" &&
part.body?.data` (truthy). -/
def isPlainWithData (p : MessagePart) : Bool :=
  p.mimeType == some "text/plain" && (truthyStr p.bodyData).isSome

/-- The loop-2 guard of `extractBody`: `part.mimeType === "text/html" &&
part.body?.data` (truthy). -/
def isHtmlWithData (p : MessagePart) : Bool :=
  p.mimeType == some "text/html" && (truthyStr p.bodyData).isSome

mutual

/-- Embedding of `extractBody` (gmail tools, src lines 659-688) on a
present payload: top-level inline data wins; otherwise the first direct
child that is a plain-text part with data (loop 1); otherwise the first
direct child that is an HTML part with data, stripped (loop 2); otherwise
the first non-empty recursive result over the children in order (loop 3).
The early-return control flow is expressed with `Option.elim`. -/
def extractBodyPart : MessagePart → String
| .mk _ bodyData none => (truthyStr bodyData).elim "" decodeBase64
| .mk _ bodyData (some ps) =>
  (truthyStr bodyData).elim
    ((ps.find? isPlainWithData).elim
      ((ps.find? isHtmlWithData).elim
        (firstNonEmptyExtract ps)
        fun ph => stripHtml (decodeBase64 ((truthyStr ph.bodyData).getD "")))
      fun pp => decodeBase64 ((truthyStr pp.bodyData).getD ""))
    decodeBase64

/-- The loop-3 recursion of `extractBody`: first non-empty recursive
extraction over the children in order. -/
def firstNonEmptyExtract : List MessagePart → String
| [] => ""
| q :: qs =>
  let nested := extractBodyPart q
  if nested = "" then firstNonEmptyExtract qs else nested

end

/-- Embedding of `extractBody` including the initial `if (!payload)`
guard. -/
def extractBody : Option MessagePart → String
| none => ""
| some p => extractBodyPart p

mutual

/-- Whether a message-part tree contains, anywhere, a plain-text part with
(truthy) body data — the precondition of the spec's claimed selection
property. -/
def hasPlainPart : MessagePart → Bool
| .mk mt bd parts =>
  (mt == some "text/plain" && (truthyStr bd).isSome) ||
    (match parts with
     | none => false
     | some ps => hasPlainPartList ps)

/-- `hasPlainPart` over a list of children. -/
def hasPlainPartList : List MessagePart → Bool
| [] => false
| q :: qs => hasPlainPart q || hasPlainPartList qs

end

/-! ### Docs document trees and `extractTextFromBody` -/

/-- `docs_v1.Schema$TextRun`, restricted to `content`. -/
structure TextRun where
  content : Option String

/-- `docs_v1.Schema$ParagraphElement`, restricted to `textRun`. -/
structure ParagraphElement where
  textRun : Option TextRun

/-- `docs_v1.Schema$Paragraph`, restricted to `elements`. -/
structure Paragraph where
  elements : Option (List ParagraphElement)

/-- `docs_v1.Schema$Table`, modelled as its grid of cell texts. The
extractor tests only the presence of a table and never reads the cells. -/
structure DocTable where
  cellTexts : List (List String)

/-- `docs_v1.Schema$StructuralElement`, restricted to the two fields
`extractTextFromBody` reads. -/
structure StructuralElement where
  paragraph : Option Paragraph
  table : Option DocTable

/-- `docs_v1.Schema$Body`, restricted to `content`. -/
structure DocBody where
  content : Option (List StructuralElement)

/-- The strings pushed onto `textParts` for one paragraph: each run's
`content` when present and truthy (the JS guard `elem.textRun?.content`
skips empty strings). -/
def paragraphTexts (p : Paragraph) : List String :=
  match p.elements with
  | none => []
  | some es => es.filterMap fun e =>
      match e.textRun with
      | none => none
      | some tr => truthyStr tr.content

/-- The strings pushed onto `textParts` for one structural element. -/
def elementTexts (e : StructuralElement) : List String :=
  (match e.paragraph with
   | none => []
   | some p => paragraphTexts p) ++
  (match e.table with
   | some _ => ["[TABLE]"]
   | none => [])

/-- Embedding of `extractTextFromBody` (docs tools, src lines 14-33):
collect run texts of paragraphs and a `[TABLE]` marker per table, in
order, then join with the empty separator. -/
def extractTextFromBody (body : Option DocBody) : String :=
  match body with
  | none => ""
  | some b =>
    match b.content with
    | none => ""
    | some es => jsJoin "" (es.flatMap elementTexts)

/-! ### Sheets value grids and `formatValuesAsMarkdown` -/

/-- A spreadsheet cell as typed in `formatValuesAsMarkdown`:
`string | number | boolean | null` (numbers restricted to integers;
`undefined` is identified with `null`, which the renderer treats the same
way). -/
inductive Cell where
| str (v : String)
| int (v : Int)
| bool (v : Bool)
| null
deriving DecidableEq, Repr

/-- One rendered table cell: `cell === null || cell === undefined ? "" :
String(cell)`. -/
def cellToString : Cell → String
| .str v => v
| .int v => toString v
| .bool v => if v then "true" else "false"
| .null => ""

/-- Embedding of `formatValuesAsMarkdown` (sheets tools, src lines 24-42). -/
def formatValuesAsMarkdown (values : Option (List (List Cell))) (range : String) : String :=
  match values with
  | none => "No data found in range: " ++ range
  | some vs =>
    match vs with
    | [] => "No data found in range: " ++ range
    | first :: rest =>
      let headers := (List.range first.length).map fun i => "Col " ++ toString (i + 1)
      let lines := ["## Data from " ++ range, ""] ++
        ["| " ++ jsJoin " | " headers ++ " |"] ++
        ["| " ++ jsJoin " | " (headers.map fun _ => "---") ++ " |"] ++
        (first :: rest).map (fun row => "| " ++ jsJoin " | " (row.map cellToString) ++ " |")
      jsJoin "\n" lines

/-! ### Truncation (`CHARACTER_LIMIT`) and the markdown texts of the three
operations the truncation claim cites -/

/-- `CHARACTER_LIMIT` from src/constants.ts. -/
def CHARACTER_LIMIT : Nat := 25000

/-- The markdown `textOutput` of the `sheets_get_values` handler (src lines
189-197): render the grid, then truncate at `CHARACTER_LIMIT` with the
`[Data truncated...]` marker. -/
def sheetsGetValuesMarkdownText (values : Option (List (List Cell))) (range : String) : String :=
  let t := formatValuesAsMarkdown values range
  if t.length > CHARACTER_LIMIT then jsSubstring t CHARACTER_LIMIT ++ "\n\n[Data truncated...]"
  else t

/-- The markdown `textOutput` of the `docs_get_document` handler (docs
tools, src lines 82-95): header lines joined with the text content, the
latter truncated at `CHARACTER_LIMIT` with the `[Content truncated...]`
marker. -/
def docsGetDocumentMarkdownText (title documentId : String) (revisionId : Option String)
    (textContent : String) : String :=
  jsJoin "\n"
    ["# " ++ title, "",
     "**Document ID**: " ++ documentId,
     "**Revision ID**: " ++ jsOrStr revisionId "N/A", "",
     "## Content", "",
     if textContent.length > CHARACTER_LIMIT then
       jsSubstring textContent CHARACTER_LIMIT ++ "\n\n[Content truncated...]"
     else textContent]

/-- Normalized thread summary (`ThreadData`), as constructed by
`gmail_list_threads` (src lines 979-986); the `from` field is renamed
`fromAddr` because `from` is a Lean keyword. -/
structure ThreadData where
  id : String
  subject : String
  fromAddr : String
  date : String
  snippet : String
  messageCount : Nat
deriving Repr, DecidableEq

/-- The per-thread block pushed by the `gmail_list_threads` markdown
rendering (src lines 1008-1016). -/
def threadLines (t : ThreadData) : List String :=
  ["### " ++ t.subject,
   "- **From**: " ++ t.fromAddr,
   "- **Messages**: " ++ toString t.messageCount,
   "- **Last activity**: " ++ t.date,
   "- **ID**: `" ++ t.id ++ "`",
   "- **Preview**: " ++ t.snippet,
   ""]

/-- The markdown `textOutput` of the `gmail_list_threads` handler (src
lines 996-1022). Note: this rendering applies no character-limit
truncation. -/
def gmailListThreadsMarkdownText (threads : List ThreadData) (nextPageToken : Option String) :
    String :=
  if threads.isEmpty then "No threads found."
  else
    jsJoin "\n"
      (["# Gmail Threads", "",
        "Found " ++ toString threads.length ++ " thread(s)" ++
          (if nextPageToken.isSome then " (more available)" else "") ++ ".",
        ""] ++
       threads.flatMap threadLines ++
       (match nextPageToken with
        | some tok => ["*Use page_token=\"" ++ tok ++ "\" to load more threads.*"]
        | none => []))

/-! ### Gmail label sorting -/

/-- Normalized label (`LabelData`), as constructed by `gmail_list_labels`
(src lines 1157-1161). -/
structure LabelData where
  id : String
  name : String
  type : String
deriving Repr, DecidableEq

/-- Whether a label is system-typed. -/
def isSystem (l : LabelData) : Bool := l.type == "system"

/-- Model of `String.prototype.localeCompare` used by the label sort
comparator; locale-aware collation is modelled as code-point order. -/
def localeCompareModel (x y : String) : Int :=
  if x < y then -1 else if x = y then 0 else 1

/-- Embedding of the `gmail_list_labels` sort comparator (src lines
1164-1168). -/
def labelCompare (a b : LabelData) : Int :=
  if isSystem a && !isSystem b then -1
  else if !isSystem a && isSystem b then 1
  else localeCompareModel a.name b.name

/-- The non-strict order induced by the comparator (`compare(a,b) <= 0`),
the sense in which the sorted array is ordered. -/
def labelLE (a b : LabelData) : Prop := labelCompare a b ≤ 0

instance : DecidableRel labelLE := fun a b =>
  inferInstanceAs (Decidable (labelCompare a b ≤ 0))

/-- The label-listing sort (`labels.sort(comparator)`), modelled as a
stable sort by the comparator's non-strict order. -/
def sortLabels (l : List LabelData) : List LabelData := List.insertionSort labelLE l

/-! ### Concurrent per-item enrichment (`Promise.all`) for message and
thread listing -/

/-- `gmail_v1.Schema$MessagePartHeader`, restricted to name and value. -/
structure GmailHeader where
  name : Option String
  value : Option String
deriving Repr, DecidableEq

/-- Embedding of `getHeader` (gmail tools, src lines 650-653):
case-insensitive lookup of the first header with the given name. -/
def getHeader (headers : Option (List GmailHeader)) (name : String) : Option String :=
  ((headers.getD []).find? fun h =>
    match h.name with
    | some n => n.toLower == name.toLower
    | none => false).bind (·.value)

/-- An entry of the primary `messages.list` response (`msg.id`,
`msg.threadId`). -/
structure ListedMessage where
  id : Option String
  threadId : Option String
deriving Repr, DecidableEq

/-- The payload of a metadata-format detail response, restricted to
`headers`. -/
structure PayloadMeta where
  headers : Option (List GmailHeader)
deriving Repr, DecidableEq

/-- The detail (`messages.get`) response for one listed message,
restricted to the fields the enrichment reads. -/
structure MessageDetail where
  payload : Option PayloadMeta
  snippet : Option String
  labelIds : Option (List String)
deriving Repr, DecidableEq

/-- Normalized message summary (`MessageData`) as constructed by
`gmail_list_messages` (src lines 780-789); `from` is renamed `fromAddr`
because `from` is a Lean keyword. -/
structure MessageData where
  id : String
  threadId : String
  fromAddr : Option String
  toAddr : Option String
  subject : Option String
  date : Option String
  snippet : String
  labels : List String
deriving Repr, DecidableEq

/-- The per-item mapper of the `gmail_list_messages` enrichment (src lines
771-790): combine one listed message with its detail response. -/
def buildMessageData (msg : ListedMessage) (detail : MessageDetail) : MessageData :=
  let headers := detail.payload.bind (·.headers)
  { id := msg.id.getD ""
    threadId := msg.threadId.getD ""
    fromAddr := getHeader headers "From"
    toAddr := getHeader headers "To"
    subject := getHeader headers "Subject"
    date := getHeader headers "Date"
    snippet := jsOrStr detail.snippet ""
    labels := detail.labelIds.getD [] }

/-- An entry of the primary `threads.list` response. -/
structure ListedThread where
  id : Option String
  snippet : Option String
deriving Repr, DecidableEq

/-- One message of a thread detail response, restricted to `payload`. -/
structure ThreadMsg where
  payload : Option PayloadMeta
deriving Repr, DecidableEq

/-- The detail (`threads.get`) response for one listed thread. -/
structure ThreadDetail where
  messages : Option (List ThreadMsg)
deriving Repr, DecidableEq

/-- The per-item mapper of the `gmail_list_threads` enrichment (src lines
967-986). -/
def buildThreadData (thread : ListedThread) (detail : ThreadDetail) : ThreadData :=
  let firstMessage := detail.messages.bind (·.head?)
  let lastMessage := detail.messages.bind fun l => l.get? (l.length - 1)
  let headers := (firstMessage.bind (·.payload)).bind (·.headers)
  { id := thread.id.getD ""
    subject := (getHeader headers "Subject").getD "(no subject)"
    fromAddr := (getHeader headers "From").getD "Unknown"
    date := (getHeader ((lastMessage.bind (·.payload)).bind (·.headers)) "Date").getD ""
    snippet := thread.snippet.getD ""
    messageCount := (detail.messages.map (·.length)).getD 0 }

/-- Model of `Promise.all` over `k` indexed tasks: the results array has
one slot per task index; each task writes its result into its own slot
when it completes, and `completionOrder` is the order in which the tasks
complete. Slots never filled (an index missing from `completionOrder`)
stay `none`. -/
def promiseAllAssemble {α : Type} (k : Nat) (res : Nat → α) (completionOrder : List Nat) :
    List (Option α) :=
  completionOrder.foldl (fun acc i => acc.set i (some (res i))) (List.replicate k none)

/-- The `gmail_list_messages` enrichment step: one detail fetch per listed
message, executed concurrently (any completion order), reassembled by
original index. -/
def gmailListMessagesEnrich (msgs : List ListedMessage) (fetch : ListedMessage → MessageDetail)
    (completionOrder : List Nat) : List (Option MessageData) :=
  promiseAllAssemble msgs.length
    (fun i => buildMessageData (msgs.getD i ⟨none, none⟩) (fetch (msgs.getD i ⟨none, none⟩)))
    completionOrder

/-- The `gmail_list_threads` enrichment step, analogous. -/
def gmailListThreadsEnrich (threads : List ListedThread) (fetch : ListedThread → ThreadDetail)
    (completionOrder : List Nat) : List (Option ThreadData) :=
  promiseAllAssemble threads.length
    (fun i => buildThreadData (threads.getD i ⟨none, none⟩) (fetch (threads.getD i ⟨none, none⟩)))
    completionOrder

/-! ### Tool response envelopes and two representative handlers -/

/-- `ResponseFormat` from src/constants.ts. -/
inductive ResponseFormat where
| markdown
| json
deriving DecidableEq, Repr

/-- One entry of a response's `content` array. -/
inductive ContentItem where
| text (text : String)
| image (data : String) (mimeType : String)
| resource (uri : String) (mimeType : String) (blob : String)
deriving DecidableEq, Repr

/-- The envelope a tool handler returns to the host: a `content` array and
an optional `structuredContent` object of type `σ`. -/
structure ToolResponse (σ : Type) where
  content : List ContentItem
  structuredContent : Option σ
deriving DecidableEq, Repr

/-- The `output` object of `docs_get_document`. -/
structure DocOutput where
  documentId : String
  title : String
  textContent : String
  revisionId : Option String
deriving DecidableEq, Repr

/-- JSON string quoting (escaping the common characters: backslash, quote,
newline, carriage return, tab); models the string case of
`JSON.stringify`. -/
def jsonQuote (s : String) : String :=
  "\"" ++ String.mk (s.data.flatMap fun c =>
    if c = '\\' then ['\\', '\\']
    else if c = '"' then ['\\', '"']
    else if c = '\n' then ['\\', 'n']
    else if c = '\r' then ['\\', 'r']
    else if c = '\t' then ['\\', 't']
    else [c]) ++ "\""

/-- Models `JSON.stringify(output, null, 2)` for a `DocOutput`; an
`undefined` field is omitted, per `JSON.stringify`. -/
def docOutputJson (o : DocOutput) : String :=
  jsJoin "\n"
    (["\x7b",
      "  \"documentId\": " ++ jsonQuote o.documentId ++ ",",
      "  \"title\": " ++ jsonQuote o.title ++ ",",
      "  \"textContent\": " ++ jsonQuote o.textContent ++
        (if o.revisionId.isSome then "," else "")] ++
     (match o.revisionId with
      | some r => ["  \"revisionId\": " ++ jsonQuote r]
      | none => []) ++
     ["\x7d"])

/-- The input of `docs_get_document` after schema validation. -/
structure DocsGetParams where
  document_id : String
  response_format : ResponseFormat
deriving DecidableEq, Repr

/-- `docs_v1.Schema$Document`, restricted to the fields the handler
reads. -/
structure DocResponse where
  documentId : Option String
  title : Option String
  revisionId : Option String
  body : Option DocBody

/-- The normalized `output` object built by `docs_get_document` (docs
tools, src lines 75-80). -/
def docsGetDocumentOutput (p : DocsGetParams) (d : DocResponse) : DocOutput :=
  { documentId := jsOrStr d.documentId p.document_id
    title := jsOrStr d.title "Untitled"
    textContent := extractTextFromBody d.body
    revisionId := d.revisionId }

/-- The `textOutput` string of `docs_get_document` (src lines 82-98). -/
def docsGetDocumentText (p : DocsGetParams) (d : DocResponse) : String :=
  let o := docsGetDocumentOutput p d
  if p.response_format = ResponseFormat.markdown then
    docsGetDocumentMarkdownText o.title o.documentId o.revisionId o.textContent
  else docOutputJson o

/-- Embedding of the `docs_get_document` handler (docs tools, src lines
65-109). The remote interaction is summarised by its outcome: either the
document response, or the thrown failure (from any step), which the
`catch` block classifies. -/
def docsGetDocumentHandler (p : DocsGetParams) (remote : Except JsError DocResponse) :
    ToolResponse DocOutput :=
  match remote with
  | .error e => { content := [.text (handleGoogleError e)], structuredContent := none }
  | .ok d =>
    { content := [.text (docsGetDocumentText p d)]
      structuredContent := some (docsGetDocumentOutput p d) }

/-- File metadata read by `drive_get_file` (`drive.files.get` with fields
`id,name,mimeType,size`). -/
structure DriveFileMeta where
  id : Option String
  name : Option String
  mimeType : Option String
  size : Option String
deriving DecidableEq, Repr

/-- Model of `formatFileSize` (drive tools, src lines 1277-1282). The
source computes the unit index with floating-point logarithms and the
scaled value with `toFixed(1)`; this model selects the index by thresholds
and truncates the scaled value to one decimal digit (the rounding mode of
`toFixed` is not modelled). -/
def formatFileSize (bytes : Nat) : String :=
  if bytes = 0 then "0 B"
  else
    let i := if bytes < 1024 then 0
      else if bytes < 1024 * 1024 then 1
      else if bytes < 1024 * 1024 * 1024 then 2
      else 3
    let scaled10 := bytes * 10 / 1024 ^ i
    toString (scaled10 / 10) ++ "." ++ toString (scaled10 % 10) ++ " " ++
      (["B", "KB", "MB", "GB"].getD i "undefined")

/-- Embedding of the `drive_get_file` handler (drive tools, src lines
1902-2028). The remote interaction is summarised by its outcome: the file
metadata together with the downloaded (or exported) bytes, or the thrown
failure. Every Google Workspace mime type exports to PDF, so the exported
branch always carries `application/pdf`. The final `try`/`catch` around
`toString("utf-8")` is modelled by the `try` branch alone, since Node's
UTF-8 decoding is total (it substitutes U+FFFD rather than throwing); no
success branch sets `structuredContent`. -/
def driveGetFileHandler (remote : Except JsError (DriveFileMeta × List Nat)) :
    ToolResponse Unit :=
  match remote with
  | .error e => { content := [.text (handleGoogleError e)], structuredContent := none }
  | .ok (meta, fileContent) =>
    let mimeType := jsOrStr meta.mimeType "application/octet-stream"
    let fileName := jsOrStr meta.name "file"
    let isGoogleWorkspaceFile := jsStartsWith mimeType "application/vnd.google-apps."
    let finalMimeType := if isGoogleWorkspaceFile then "application/pdf" else mimeType
    let base64Content := String.mk (stdB64Encode fileContent)
    let info := "File: " ++ fileName ++ "\nType: " ++ finalMimeType ++ "\nSize: " ++
      formatFileSize fileContent.length
    if finalMimeType = "application/pdf" then
      { content := [.text info,
          .resource ("data:" ++ finalMimeType ++ ";base64," ++ base64Content) finalMimeType
            base64Content]
        structuredContent := none }
    else if jsStartsWith finalMimeType "image/" then
      { content := [.text info, .image base64Content finalMimeType]
        structuredContent := none }
    else
      { content := [.text (info ++ "\n\n---\n\n" ++ utf8DecodeString fileContent)]
        structuredContent := none }

/-! ### Drive search query construction -/

/-- `MIME_TYPE_MAP` (drive tools, src lines 1235-1240). -/
def MIME_TYPE_MAP (k : String) : Option String :=
  if k = "documents" then some "application/vnd.google-apps.document"
  else if k = "spreadsheets" then some "application/vnd.google-apps.spreadsheet"
  else if k = "presentations" then some "application/vnd.google-apps.presentation"
  else if k = "folders" then some "application/vnd.google-apps.folder"
  else none

/-- The quote-escaping substitution of `drive_search_files` (src line
1813): every single quote of the user's query becomes backslash-quote. -/
def escapeQuotes (q : String) : String :=
  String.mk (q.data.flatMap fun c => if c = '\'' then ['\\', '\''] else [c])

/-- The mime-type clause appended to the search query when a specific
`mime_type` was requested and is known (src lines 1814-1819). -/
def mimeSuffix (mime_type : String) : String :=
  if mime_type = "all" then ""
  else
    match MIME_TYPE_MAP mime_type with
    | some m => " and mimeType = '" ++ m ++ "'"
    | none => ""

/-- Embedding of the `drive_search_files` query construction (src lines
1812-1819). -/
def driveSearchQuery (query : String) (mime_type : String) : String :=
  "trashed = false and fullText contains '" ++ escapeQuotes query ++ "'" ++ mimeSuffix mime_type

/-- Scanner deciding whether a character list contains a quote that is not
escaped by an immediately preceding backslash — the sense in which an
embedded quote would terminate the single-quoted query literal early. -/
def hasUnescapedQuoteAux (prevBackslash : Bool) : List Char → Bool
| [] => false
| c :: rest =>
  if c = '\'' && !prevBackslash then true
  else hasUnescapedQuoteAux (c = '\\') rest

/-- Whether a character list contains an unescaped quote. -/
def hasUnescapedQuote (l : List Char) : Bool := hasUnescapedQuoteAux false l

/-! ### Spec-side definitions (phrased from the spec's words, for
comparison with the embedded code) and concrete instances used in
counterexamples and witnesses -/

/-- Concatenation of a list of strings (the spec's notion of flattening). -/
def concatAll : List String → String
| [] => ""
| a :: l => a ++ concatAll l

/-- Spec side: the literal text of one inline run (a run without content
contributes nothing). -/
def specRunText (pe : ParagraphElement) : String :=
  match pe.textRun with
  | some tr => tr.content.getD ""
  | none => ""

/-- Spec side: one block's contribution — for a paragraph block the
concatenation of its run texts in order, for a table block exactly the
literal marker `[TABLE]`. -/
def specElementText (e : StructuralElement) : String :=
  (match e.paragraph with
   | some p => concatAll ((p.elements.getD []).map specRunText)
   | none => "") ++
  (match e.table with
   | some _ => "[TABLE]"
   | none => "")

/-- Spec side: extraction is the concatenation, in document order, of the
blocks' contributions; a null or empty body yields the empty string. -/
def specBodyText (body : Option DocBody) : String :=
  match body with
  | none => ""
  | some b => concatAll ((b.content.getD []).map specElementText)

/-- Spec side: the synthesized header row `Col 1 | Col 2 | …` for `n`
columns. -/
def specHeaderRow (n : Nat) : String :=
  "| " ++ jsJoin " | " ((List.range n).map fun i => "Col " ++ toString (i + 1)) ++ " |"

/-- Spec side: the markdown separator row for `n` columns. -/
def specSepRow (n : Nat) : String :=
  "| " ++ jsJoin " | " ((List.range n).map fun _ => "---") ++ " |"

/-- Spec side: one rendered data row — every cell stringified, null
rendered as the empty string. -/
def specDataRow (row : List Cell) : String :=
  "| " ++ jsJoin " | " (row.map cellToString) ++ " |"

/-- A 26000-character string, used to build renderings that exceed
`CHARACTER_LIMIT`. -/
def bigText : String := String.mk (List.replicate 26000 'a')

/-- A thread summary whose snippet alone exceeds `CHARACTER_LIMIT`. -/
def c3Thread : ThreadData :=
  { id := "tid", subject := "subj", fromAddr := "F", date := "D", snippet := bigText
    messageCount := 1 }

/-- A message-part tree whose direct children are an HTML part and a
nested multipart child containing a plain-text part: base64 of
`<p>Hi</p>` and of `Hello` respectively. -/
def c1Tree : MessagePart :=
  .mk none none (some
    [.mk (some "text/html") (some "PHA+SGk8L3A+") none,
     .mk (some "multipart/alternative") none (some
       [.mk (some "text/plain") (some "SGVsbG8=") none])])

/-- Metadata of a Google-Docs file, as read by `drive_get_file` (exported
to PDF by the handler). -/
def c5PdfMeta : DriveFileMeta :=
  { id := some "fid", name := some "doc", mimeType := some "application/vnd.google-apps.document"
    size := none }

/-! ## Theorems -/

theorem concatAll_append (l1 l2 : List String) :
    concatAll (l1 ++ l2) = concatAll l1 ++ concatAll l2 := by
  induction l1 with
  | nil => simp [concatAll]
  | cons a l ih => simp [concatAll, ih, String.append_assoc]

theorem jsJoin_empty_sep (l : List String) : jsJoin "" l = concatAll l := by
  induction l with
  | nil => rfl
  | cons a l ih =>
    cases l with
    | nil => simp [jsJoin, concatAll]
    | cons b m => simp [jsJoin, concatAll] at ih ⊢; simp [ih, String.append_assoc]

theorem concatAll_flatMap (l : List α) (f : α → List String) :
    concatAll (l.flatMap f) = concatAll (l.map fun x => concatAll (f x)) := by
  induction l with
  | nil => rfl
  | cons a l ih => simp [List.flatMap_cons, concatAll_append, concatAll, ih]

theorem truthyStr_none : truthyStr none = none := rfl

theorem truthyStr_some (s : String) :
    truthyStr (some s) = if s = "" then none else some s := rfl

theorem concatAll_paragraph_filterMap (es : List ParagraphElement) :
    concatAll (es.filterMap fun e =>
      match e.textRun with
      | none => none
      | some tr => truthyStr tr.content) = concatAll (es.map specRunText) := by
  induction es with
  | nil => rfl
  | cons e es ih =>
    rw [List.filterMap_cons, List.map_cons]
    cases htr : e.textRun with
    | none =>
      simp only [htr]
      rw [concatAll]
      simp [specRunText, htr, ih]
    | some tr =>
      cases hc : tr.content with
      | none =>
        simp only [htr, hc, truthyStr_none]
        rw [concatAll]
        simp [specRunText, htr, hc, ih]
      | some s =>
        by_cases hs : s = ""
        · simp only [htr, hc, truthyStr_some, if_pos hs]
          rw [concatAll]
          simp [specRunText, htr, hc, hs, ih]
        · simp only [htr, hc, truthyStr_some, if_neg hs]
          rw [concatAll, concatAll]
          simp [specRunText, htr, hc, ih]

theorem concatAll_elementTexts (e : StructuralElement) :
    concatAll (elementTexts e) = specElementText e := by
  unfold elementTexts specElementText
  rw [concatAll_append]
  congr 1
  · cases hp : e.paragraph with
    | none => rfl
    | some p =>
      simp only [paragraphTexts]
      cases he : p.elements with
      | none => simp [he, concatAll]
      | some es =>
        simp only [he, Option.getD_some]
        exact concatAll_paragraph_filterMap es
  · cases e.table <;> simp [concatAll]

theorem extractTextFromBody_eq_spec (body : Option DocBody) :
    extractTextFromBody body = specBodyText body := by
  cases body with
  | none => rfl
  | some b =>
    cases hc : b.content with
    | none => simp [extractTextFromBody, specBodyText, hc, concatAll]
    | some es =>
      simp only [extractTextFromBody, specBodyText, hc, Option.getD_some]
      rw [jsJoin_empty_sep, concatAll_flatMap]
      congr 1
      exact List.map_congr_left fun e _ => concatAll_elementTexts e

/-- C2: for every document body, extraction returns the concatenation, in
document order, of the literal text of every text run of every paragraph
block; a table block contributes exactly the literal `[TABLE]` marker and
its cell text never appears (replacing any table's cell grid leaves the
output unchanged); a null or empty body yields the empty string. -/
theorem c2_extract_text_from_body :
    (∀ body : Option DocBody, extractTextFromBody body = specBodyText body) ∧
    (∀ (pre post : List StructuralElement) (p : Option Paragraph) (t t' : DocTable),
      extractTextFromBody (some ⟨some (pre ++ ⟨p, some t⟩ :: post)⟩) =
        extractTextFromBody (some ⟨some (pre ++ ⟨p, some t'⟩ :: post)⟩)) := by
  refine ⟨extractTextFromBody_eq_spec, fun pre post p t t' => ?_⟩
  rw [extractTextFromBody_eq_spec, extractTextFromBody_eq_spec]
  simp [specBodyText, specElementText]

/-- C4: the error classifier decides by substring matching on the failure
message, in fixed priority order (401/invalid_grant, then 403, 404, 429,
400, then the generic fallback including the original text); a non-Error
value yields the generic message with its string coercion; and a message
containing `429 Too Many Requests` classifies as rate-limited. -/
theorem c4_error_classification (m : String) :
    ((jsIncludes m "401" || jsIncludes m "invalid_grant") = true →
      handleGoogleError (.error m) =
        "Error: Authentication failed. Please check your Google OAuth credentials and refresh token.") ∧
    ((jsIncludes m "401" || jsIncludes m "invalid_grant") = false → jsIncludes m "403" = true →
      handleGoogleError (.error m) =
        "Error: Permission denied. Ensure the OAuth token has the required scopes (documents, drive).") ∧
    ((jsIncludes m "401" || jsIncludes m "invalid_grant") = false → jsIncludes m "403" = false →
      jsIncludes m "404" = true →
      handleGoogleError (.error m) =
        "Error: Resource not found. Please check the document or comment ID.") ∧
    ((jsIncludes m "401" || jsIncludes m "invalid_grant") = false → jsIncludes m "403" = false →
      jsIncludes m "404" = false → jsIncludes m "429" = true →
      handleGoogleError (.error m) =
        "Error: Rate limit exceeded. Please wait before making more requests.") ∧
    ((jsIncludes m "401" || jsIncludes m "invalid_grant") = false → jsIncludes m "403" = false →
      jsIncludes m "404" = false → jsIncludes m "429" = false → jsIncludes m "400" = true →
      handleGoogleError (.error m) = "Error: Invalid request. " ++ m) ∧
    ((jsIncludes m "401" || jsIncludes m "invalid_grant") = false → jsIncludes m "403" = false →
      jsIncludes m "404" = false → jsIncludes m "429" = false → jsIncludes m "400" = false →
      handleGoogleError (.error m) = "Error: " ++ m) ∧
    (∀ s, handleGoogleError (.nonError s) = "Error: Unexpected error occurred: " ++ s) ∧
    handleGoogleError (.error "Request failed: 429 Too Many Requests") =
      "Error: Rate limit exceeded. Please wait before making more requests." := by
  refine ⟨?_, ?_, ?_, ?_, ?_, ?_, fun s => rfl, by decide⟩ <;>
    intros <;> simp_all [handleGoogleError]

/-- Witness for C4 at concrete inputs: `boom 404` reaches the not-found
branch with the earlier branches' guards false. -/
theorem c4_error_classification_witness :
    (jsIncludes "boom 404" "401" || jsIncludes "boom 404" "invalid_grant") = false ∧
    jsIncludes "boom 404" "403" = false ∧ jsIncludes "boom 404" "404" = true ∧
    handleGoogleError (.error "boom 404") =
      "Error: Resource not found. Please check the document or comment ID." :=
  ⟨by decide, by decide, by decide,
    (c4_error_classification "boom 404").2.2.1 (by decide) (by decide) (by decide)⟩

theorem hasUnescapedQuoteAux_escape (l : List Char) :
    ∀ prev, hasUnescapedQuoteAux prev
      (l.flatMap fun c => if c = '\'' then ['\\', '\''] else [c]) = false := by
  induction l with
  | nil => intro prev; rfl
  | cons c l ih =>
    intro prev
    by_cases hc : c = '\''
    · simp only [List.flatMap_cons, hc, if_pos rfl, List.cons_append, List.singleton_append]
      simp [hasUnescapedQuoteAux, ih]
    · simp only [List.flatMap_cons, if_neg hc, List.singleton_append]
      simp [hasUnescapedQuoteAux, hc, ih]

/-- C10: the Drive file-search operation builds the remote query as
`trashed = false and fullText contains '<q>'` (plus the mime-type clause)
with every single quote of the user's query replaced by backslash-quote,
and consequently the escaped insert contains no unescaped quote — no quote
character coming from the user's query can terminate the quoted
contains-literal early. -/
theorem c10_drive_query_escaping (query mime_type : String) :
    driveSearchQuery query mime_type =
      "trashed = false and fullText contains '" ++ escapeQuotes query ++ "'" ++
        mimeSuffix mime_type ∧
    hasUnescapedQuote (escapeQuotes query).data = false := by
  refine ⟨rfl, ?_⟩
  exact hasUnescapedQuoteAux_escape query.data false

theorem localeCompareModel_le_zero (x y : String) : localeCompareModel x y ≤ 0 ↔ x ≤ y := by
  unfold localeCompareModel
  rcases lt_trichotomy x y with h | h | h
  · rw [if_pos h]
    exact iff_of_true (by norm_num) (le_of_lt h)
  · rw [if_neg (by rw [h]; exact lt_irrefl y), if_pos h]
    exact iff_of_true le_rfl (le_of_eq h)
  · rw [if_neg (not_lt_of_gt h), if_neg (by intro he; rw [he] at h; exact lt_irrefl y h)]
    exact iff_of_false (by norm_num) (not_le_of_gt h)

theorem labelLE_iff (a b : LabelData) :
    labelLE a b ↔
      ((isSystem a = true ∧ isSystem b = false) ∨
        (isSystem a = isSystem b ∧ a.name ≤ b.name)) := by
  unfold labelLE labelCompare
  split_ifs with h1 h2
  · rw [Bool.and_eq_true, Bool.not_eq_true'] at h1
    exact iff_of_true (by norm_num) (Or.inl h1)
  · rw [Bool.and_eq_true, Bool.not_eq_true'] at h2
    refine iff_of_false (by norm_num) ?_
    rintro (⟨ha, hb⟩ | ⟨he, _⟩)
    · rw [h2.2] at hb
      exact absurd hb (by simp)
    · rw [h2.1, h2.2] at he
      exact absurd he (by simp)
  · rw [localeCompareModel_le_zero]
    have heq : isSystem a = isSystem b := by
      cases ha : isSystem a <;> cases hb : isSystem b
      · rfl
      · exact absurd (by rw [ha, hb]; rfl) h2
      · exact absurd (by rw [ha, hb]; rfl) h1
      · rfl
    constructor
    · exact fun hle => Or.inr ⟨heq, hle⟩
    · rintro (⟨ha, hb⟩ | ⟨_, hle⟩)
      · exact absurd (by rw [ha, hb]; rfl) h1
      · exact hle

theorem labelLE_total (a b : LabelData) : labelLE a b ∨ labelLE b a := by
  rw [labelLE_iff, labelLE_iff]
  cases ha : isSystem a <;> cases hb : isSystem b <;>
    rcases le_total a.name b.name with h | h <;> simp [h]

theorem labelLE_trans {a b c : LabelData} (h1 : labelLE a b) (h2 : labelLE b c) :
    labelLE a c := by
  rw [labelLE_iff] at h1 h2 ⊢
  rcases h1 with ⟨ha1, hb1⟩ | ⟨heq1, hn1⟩ <;> rcases h2 with ⟨ha2, hb2⟩ | ⟨heq2, hn2⟩
  · rw [hb1] at ha2
    exact absurd ha2 (by simp)
  · exact Or.inl ⟨ha1, by rw [← heq2]; exact hb1⟩
  · exact Or.inl ⟨by rw [heq1]; exact ha2, hb2⟩
  · exact Or.inr ⟨heq1.trans heq2, le_trans hn1 hn2⟩

/-- C7: the label-listing sort returns a permutation of its input in which
every system-typed label precedes every non-system label, and labels
within the same group appear in alphabetical order by name (locale-aware
comparison modelled as code-point order). -/
theorem c7_label_sort (l : List LabelData) :
    (sortLabels l).Perm l ∧
      (sortLabels l).Pairwise fun a b =>
        (isSystem b = true → isSystem a = true) ∧
        (isSystem a = isSystem b → a.name ≤ b.name) := by
  haveI : IsTotal LabelData labelLE := ⟨labelLE_total⟩
  haveI : IsTrans LabelData labelLE := ⟨fun _ _ _ => labelLE_trans⟩
  refine ⟨List.perm_insertionSort labelLE l, ?_⟩
  refine (List.sorted_insertionSort labelLE l).imp fun {a b} hab => ?_
  rw [labelLE_iff] at hab
  rcases hab with ⟨ha, hb⟩ | ⟨hab, habn⟩
  · refine ⟨fun hbs => ha, fun hei => ?_⟩
    rw [ha, hb] at hei
    exact absurd hei (by simp)
  · exact ⟨fun hbs => by rw [hab, hbs], fun _ => habn⟩

theorem jsJoin_cons_concat (sep : String) (a : String) (l : List String) :
    jsJoin sep (a :: l) = a ++ concatAll (l.map fun x => sep ++ x) := by
  induction l generalizing a with
  | nil => simp [jsJoin, concatAll]
  | cons b m ih => simp [jsJoin, concatAll, ih, String.append_assoc]

/-- C8: for every non-empty 2D value grid, the markdown table rendering
consists of the range heading, a blank line, a header row synthesized from
the first row's length as `Col 1, Col 2, …`, the separator row, and one
data row per grid row in order with each cell stringified; a null cell
renders as the empty string; and the two-by-two scenario produces the
expected table. -/
theorem c8_values_markdown :
    (∀ (first : List Cell) (rest : List (List Cell)) (range : String),
      formatValuesAsMarkdown (some (first :: rest)) range =
        "## Data from " ++ range ++ "\n" ++ "\n" ++ specHeaderRow first.length ++ "\n" ++
          specSepRow first.length ++
          concatAll ((first :: rest).map fun row => "\n" ++ specDataRow row)) ∧
    cellToString Cell.null = "" ∧
    formatValuesAsMarkdown (some [[Cell.str "a", Cell.str "b"], [Cell.str "c", Cell.str "d"]])
        "Sheet1!A1:B2" =
      "## Data from Sheet1!A1:B2\n\n| Col 1 | Col 2 |\n| --- | --- |\n| a | b |\n| c | d |" := by
  refine ⟨?_, rfl, by decide⟩
  intro first rest range
  simp only [formatValuesAsMarkdown]
  rw [show (["## Data from " ++ range, ""] ++
      ["| " ++ jsJoin " | " ((List.range first.length).map fun i => "Col " ++ toString (i + 1)) ++ " |"] ++
      ["| " ++ jsJoin " | " (((List.range first.length).map fun i => "Col " ++ toString (i + 1)).map fun _ => "---") ++ " |"] ++
      (first :: rest).map (fun row => "| " ++ jsJoin " | " (row.map cellToString) ++ " |")) =
    ("## Data from " ++ range) :: "" ::
      ("| " ++ jsJoin " | " ((List.range first.length).map fun i => "Col " ++ toString (i + 1)) ++ " |") ::
      ("| " ++ jsJoin " | " (((List.range first.length).map fun i => "Col " ++ toString (i + 1)).map fun _ => "---") ++ " |") ::
      (first :: rest).map (fun row => "| " ++ jsJoin " | " (row.map cellToString) ++ " |") from rfl]
  rw [jsJoin_cons_concat]
  simp only [List.map_cons, concatAll, List.map_map, specHeaderRow, specSepRow, specDataRow]
  simp only [String.append_assoc, Function.comp_def]
  rfl

theorem foldl_set_length {α : Type} (res : Nat → α) (order : List Nat)
    (acc : List (Option α)) :
    (order.foldl (fun acc i => acc.set i (some (res i))) acc).length = acc.length := by
  induction order generalizing acc with
  | nil => rfl
  | cons i order ih => simp [List.foldl_cons, ih, List.length_set]

theorem foldl_set_getElem? {α : Type} (res : Nat → α) (order : List Nat)
    (acc : List (Option α)) (j : Nat) (hj : j < acc.length) :
    (order.foldl (fun acc i => acc.set i (some (res i))) acc)[j]? =
      if j ∈ order then some (some (res j)) else acc[j]? := by
  induction order generalizing acc with
  | nil => simp
  | cons i order ih =>
    rw [List.foldl_cons, ih _ (by rw [List.length_set]; exact hj)]
    by_cases hmem : j ∈ order
    · simp [hmem, List.mem_cons]
    · by_cases hij : i = j
      · subst hij
        simp [hmem, List.mem_cons, List.getElem?_set_self hj]
      · rw [List.getElem?_set_ne hij]
        simp [List.mem_cons, hmem, Ne.symm hij]

theorem promiseAllAssemble_eq {α : Type} (k : Nat) (res : Nat → α) (order : List Nat)
    (hall : ∀ j, j < k → j ∈ order) :
    promiseAllAssemble k res order = (List.range k).map fun j => some (res j) := by
  apply List.ext_getElem?
  intro j
  by_cases hjk : j < k
  · rw [promiseAllAssemble, foldl_set_getElem? _ _ _ j (by rw [List.length_replicate]; exact hjk)]
    rw [if_pos (hall j hjk), List.getElem?_map, List.getElem?_range hjk]
    rfl
  · rw [List.getElem?_eq_none (l := promiseAllAssemble k res order)
      (by rw [promiseAllAssemble, foldl_set_length, List.length_replicate]; omega)]
    rw [List.getElem?_eq_none (by rw [List.length_map, List.length_range]; omega)]

theorem promiseAllAssemble_getD_eq {ι μ : Type} (items : List ι) (d : ι) (f : ι → μ)
    (order : List Nat) (hall : ∀ j, j < items.length → j ∈ order) :
    promiseAllAssemble items.length (fun i => f (items.getD i d)) order =
      items.map fun x => some (f x) := by
  rw [promiseAllAssemble_eq _ _ _ hall]
  apply List.ext_getElem?
  intro j
  by_cases hj : j < items.length
  · rw [List.getElem?_map, List.getElem?_range hj, List.getElem?_map]
    simp [List.getD_eq_getElem?_getD, List.getElem?_eq_getElem hj]
  · rw [List.getElem?_eq_none (by rw [List.length_map, List.length_range]; omega),
      List.getElem?_eq_none (by rw [List.length_map]; omega)]

/-- C9: for message and thread listing, whatever the completion order of
the concurrent per-item detail fetches (any order covering every index),
the i-th element of the final list is built from the i-th element of the
primary list call's response — the final list preserves the original
list-call order. -/
theorem c9_enrichment_order (msgs : List ListedMessage) (fetchM : ListedMessage → MessageDetail)
    (threads : List ListedThread) (fetchT : ListedThread → ThreadDetail)
    (orderM orderT : List Nat)
    (hm : ∀ j, j < msgs.length → j ∈ orderM)
    (ht : ∀ j, j < threads.length → j ∈ orderT) :
    gmailListMessagesEnrich msgs fetchM orderM =
      msgs.map (fun m => some (buildMessageData m (fetchM m))) ∧
    gmailListThreadsEnrich threads fetchT orderT =
      threads.map fun t => some (buildThreadData t (fetchT t)) :=
  ⟨promiseAllAssemble_getD_eq msgs ⟨none, none⟩ (fun m => buildMessageData m (fetchM m)) orderM hm,
   promiseAllAssemble_getD_eq threads ⟨none, none⟩ (fun t => buildThreadData t (fetchT t)) orderT ht⟩

/-- Witness for C9: two listed messages and one listed thread, with the
detail fetches completing in reversed order. -/
theorem c9_enrichment_order_witness :
    (∀ j, j < ([⟨some "a", some "ta"⟩, ⟨some "b", some "tb"⟩] : List ListedMessage).length →
      j ∈ [1, 0]) ∧
    (∀ j, j < ([⟨some "t", some "s"⟩] : List ListedThread).length → j ∈ [0]) ∧
    (gmailListMessagesEnrich [⟨some "a", some "ta"⟩, ⟨some "b", some "tb"⟩]
        (fun _ => ⟨none, none, none⟩) [1, 0] =
      ([⟨some "a", some "ta"⟩, ⟨some "b", some "tb"⟩] : List ListedMessage).map
        (fun m => some (buildMessageData m ⟨none, none, none⟩)) ∧
     gmailListThreadsEnrich [⟨some "t", some "s"⟩] (fun _ => ⟨none⟩) [0] =
      ([⟨some "t", some "s"⟩] : List ListedThread).map
        fun t => some (buildThreadData t ⟨none⟩)) :=
  ⟨by decide, by decide,
    c9_enrichment_order [⟨some "a", some "ta"⟩, ⟨some "b", some "tb"⟩]
      (fun _ => ⟨none, none, none⟩) [⟨some "t", some "s"⟩] (fun _ => ⟨none⟩) [1, 0] [0]
      (by decide) (by decide)⟩

theorem bigText_length : bigText.length = 26000 := by
  rw [bigText, String.length_mk, List.length_replicate]

theorem jsSubstring_length_of_gt {t : String} {n : Nat} (h : t.length > n) :
    (jsSubstring t n).length = n := by
  rw [jsSubstring, String.length_mk, List.length_take]
  have : t.length = t.data.length := rfl
  omega

theorem truncate_length {t : String} (m : String) {n : Nat} (h : t.length > n) :
    (jsSubstring t n ++ m).length = n + m.length := by
  rw [String.length_append, jsSubstring_length_of_gt h]

theorem truncate_prefix {t : String} (m : String) {n : Nat} (h : t.length > n) :
    (jsSubstring t n ++ m).data.take n = t.data.take n := by
  rw [String.data_append, jsSubstring, List.take_append_eq_append_take]
  have hlen : (t.data.take n).length = n := by
    rw [List.length_take]
    have : t.length = t.data.length := rfl
    omega
  rw [hlen, Nat.sub_self, List.take_zero, List.append_nil, List.take_take, Nat.min_self]

theorem jsJoin_length_ge_component (sep : String) {l : List String} {s : String}
    (h : s ∈ l) : s.length ≤ (jsJoin sep l).length := by
  induction l with
  | nil => simp at h
  | cons a m ih =>
    cases m with
    | nil =>
      rw [List.mem_singleton] at h
      subst h
      exact le_refl _
    | cons b m2 =>
      rw [List.mem_cons] at h
      rcases h with rfl | hm
      · rw [jsJoin, String.length_append, String.length_append]
        omega
      · have := ih hm
        rw [jsJoin, String.length_append, String.length_append]
        omega

/-- C3 (amended): the character-limit truncation applies to the markdown
outputs that implement it — the sheets value renderings and the document
content rendering. For `sheets_get_values`, whenever the rendering exceeds
25,000 characters the returned string is its first 25,000 characters
followed by the `[Data truncated...]` marker, with length exactly 25,000
plus the marker's length and the first 25,000 characters unchanged. For
`docs_get_document`, only the text-content component of the returned
rendering is truncated the same way (with the `[Content truncated...]`
marker); the header lines around it are kept. The gmail renderings apply
no truncation (see the counterexample). -/
theorem c3_truncation_amended :
    (∀ (values : Option (List (List Cell))) (range : String),
      (formatValuesAsMarkdown values range).length > CHARACTER_LIMIT →
        sheetsGetValuesMarkdownText values range =
          jsSubstring (formatValuesAsMarkdown values range) CHARACTER_LIMIT ++
            "\n\n[Data truncated...]" ∧
        (sheetsGetValuesMarkdownText values range).length =
          CHARACTER_LIMIT + ("\n\n[Data truncated...]" : String).length ∧
        (sheetsGetValuesMarkdownText values range).data.take CHARACTER_LIMIT =
          (formatValuesAsMarkdown values range).data.take CHARACTER_LIMIT) ∧
    (∀ (title documentId : String) (revisionId : Option String) (textContent : String),
      textContent.length > CHARACTER_LIMIT →
        docsGetDocumentMarkdownText title documentId revisionId textContent =
          jsJoin "\n"
            ["# " ++ title, "",
             "**Document ID**: " ++ documentId,
             "**Revision ID**: " ++ jsOrStr revisionId "N/A", "",
             "## Content", "",
             jsSubstring textContent CHARACTER_LIMIT ++ "\n\n[Content truncated...]"] ∧
        (jsSubstring textContent CHARACTER_LIMIT ++ "\n\n[Content truncated...]").length =
          CHARACTER_LIMIT + ("\n\n[Content truncated...]" : String).length ∧
        (jsSubstring textContent CHARACTER_LIMIT ++
            "\n\n[Content truncated...]").data.take CHARACTER_LIMIT =
          textContent.data.take CHARACTER_LIMIT) := by
  constructor
  · intro values range h
    refine ⟨?_, ?_, ?_⟩
    · rw [sheetsGetValuesMarkdownText, if_pos h]
    · rw [sheetsGetValuesMarkdownText, if_pos h, truncate_length _ h]
    · rw [sheetsGetValuesMarkdownText, if_pos h, truncate_prefix _ h]
  · intro title documentId revisionId textContent h
    refine ⟨?_, truncate_length _ h, truncate_prefix _ h⟩
    rw [docsGetDocumentMarkdownText, if_pos h]

/-- Counterexample to C3 as stated: the markdown rendering of
`gmail_list_threads` is returned without truncation, so an output whose
natural length exceeds 25,000 characters keeps its full length instead of
25,000 plus a marker length. -/
theorem c3_truncation_counterexample :
    (gmailListThreadsMarkdownText [c3Thread] none).length > CHARACTER_LIMIT ∧
    (gmailListThreadsMarkdownText [c3Thread] none).length ≠
      CHARACTER_LIMIT + ("\n\n[Data truncated...]" : String).length ∧
    (gmailListThreadsMarkdownText [c3Thread] none).length ≠
      CHARACTER_LIMIT + ("\n\n[Content truncated...]" : String).length := by
  have he : gmailListThreadsMarkdownText [c3Thread] none =
      jsJoin "\n"
        ["# Gmail Threads", "",
         "Found " ++ toString (1 : Nat) ++ " thread(s)" ++ "" ++ ".", "",
         "### subj",
         "- **From**: F",
         "- **Messages**: " ++ toString (1 : Nat),
         "- **Last activity**: D",
         "- **ID**: `tid`",
         "- **Preview**: " ++ bigText,
         ""] := by
    rw [gmailListThreadsMarkdownText]
    simp [c3Thread, threadLines]
  have hmem : ("- **Preview**: " ++ bigText) ∈
      ["# Gmail Threads", "",
       "Found " ++ toString (1 : Nat) ++ " thread(s)" ++ "" ++ ".", "",
       "### subj",
       "- **From**: F",
       "- **Messages**: " ++ toString (1 : Nat),
       "- **Last activity**: D",
       "- **ID**: `tid`",
       "- **Preview**: " ++ bigText,
       ""] := by
    simp
  have hge := jsJoin_length_ge_component "\n" hmem
  rw [← he] at hge
  have hb : bigText.length ≤ ("- **Preview**: " ++ bigText).length := by
    rw [String.length_append]
    omega
  have h26 : 26000 ≤ (gmailListThreadsMarkdownText [c3Thread] none).length := by
    have hbl := bigText_length
    omega
  have e0 : CHARACTER_LIMIT = 25000 := rfl
  have e1 : ("\n\n[Data truncated...]" : String).length = 21 := rfl
  have e2 : ("\n\n[Content truncated...]" : String).length = 24 := rfl
  refine ⟨by omega, by omega, by omega⟩

/-- Witness for C3 at concrete inputs: a one-cell grid and a text content
whose renderings exceed the limit. -/
theorem c3_truncation_witness :
    (formatValuesAsMarkdown (some [[Cell.str bigText]]) "r").length > CHARACTER_LIMIT ∧
    bigText.length > CHARACTER_LIMIT ∧
    (sheetsGetValuesMarkdownText (some [[Cell.str bigText]]) "r").length =
      CHARACTER_LIMIT + ("\n\n[Data truncated...]" : String).length ∧
    (jsSubstring bigText CHARACTER_LIMIT ++ "\n\n[Content truncated...]").length =
      CHARACTER_LIMIT + ("\n\n[Content truncated...]" : String).length := by
  have h1 : (formatValuesAsMarkdown (some [[Cell.str bigText]]) "r").length > CHARACTER_LIMIT := by
    have he : formatValuesAsMarkdown (some [[Cell.str bigText]]) "r" =
        jsJoin "\n"
          ["## Data from r", "",
           "| " ++ jsJoin " | " ["Col " ++ toString (1 : Nat)] ++ " |",
           "| " ++ jsJoin " | " ["---"] ++ " |",
           "| " ++ jsJoin " | " [bigText] ++ " |"] := by
      rw [formatValuesAsMarkdown]
      simp [cellToString, List.range_succ]
    have hmem : ("| " ++ jsJoin " | " [bigText] ++ " |") ∈
        ["## Data from r", "",
         "| " ++ jsJoin " | " ["Col " ++ toString (1 : Nat)] ++ " |",
         "| " ++ jsJoin " | " ["---"] ++ " |",
         "| " ++ jsJoin " | " [bigText] ++ " |"] := by
      simp
    have hge := jsJoin_length_ge_component "\n" hmem
    rw [← he] at hge
    have hb : bigText.length ≤ ("| " ++ jsJoin " | " [bigText] ++ " |").length := by
      rw [show jsJoin " | " [bigText] = bigText from rfl, String.length_append,
        String.length_append]
      omega
    have hbl := bigText_length
    have e0 : CHARACTER_LIMIT = 25000 := rfl
    omega
  have h2 : bigText.length > CHARACTER_LIMIT := by
    have hbl := bigText_length
    have e0 : CHARACTER_LIMIT = 25000 := rfl
    omega
  exact ⟨h1, h2,
    ((c3_truncation_amended.1 (some [[Cell.str bigText]]) "r" h1).2.1),
    ((c3_truncation_amended.2 "t" "d" none bigText h2).2.1)⟩

/-- Counterexample to C1 as stated: a tree whose direct children are an
HTML part and a nested multipart child holding a plain-text part. The tree
contains a plain-text part (base64 of `Hello`), yet extraction returns the
stripped HTML of the direct child (`Hi`), not the plain part's decoded
content — the plain-text preference only inspects direct children. -/
theorem c1_extract_body_counterexample :
    hasPlainPart c1Tree = true ∧
    decodeBase64 "SGVsbG8=" = "Hello" ∧
    extractBody (some c1Tree) = "Hi" ∧
    extractBody (some c1Tree) ≠ decodeBase64 "SGVsbG8=" := by
  refine ⟨rfl, rfl, rfl, ?_⟩
  rw [show extractBody (some c1Tree) = "Hi" from rfl,
    show decodeBase64 "SGVsbG8=" = "Hello" from rfl]
  decide

/-- C1 (amended): `extractBody`'s selection policy. Top-level inline body
data, when present and non-empty, is decoded and returned outright. For a
payload without inline data but with a parts list: the first DIRECT child
that is a plain-text part with data wins, regardless of sibling HTML parts;
failing that, the first direct HTML child with data, stripped of markup;
failing that, the first non-empty result of recursing into the children in
order (so a plain-text part nested below a non-matching child is only
found through recursion, after the direct HTML fallback). -/
theorem c1_extract_body_policy :
    (∀ (mt : Option String) (d : String) (ps : Option (List MessagePart)), d ≠ "" →
      extractBody (some (.mk mt (some d) ps)) = decodeBase64 d) ∧
    (∀ (mt : Option String) (bd : Option String) (ps : List MessagePart) (pp : MessagePart),
      truthyStr bd = none → ps.find? isPlainWithData = some pp →
      extractBody (some (.mk mt bd (some ps))) =
        decodeBase64 ((truthyStr pp.bodyData).getD "")) ∧
    (∀ (mt : Option String) (bd : Option String) (ps : List MessagePart) (ph : MessagePart),
      truthyStr bd = none → ps.find? isPlainWithData = none →
      ps.find? isHtmlWithData = some ph →
      extractBody (some (.mk mt bd (some ps))) =
        stripHtml (decodeBase64 ((truthyStr ph.bodyData).getD ""))) ∧
    (∀ (mt : Option String) (bd : Option String) (ps : List MessagePart),
      truthyStr bd = none → ps.find? isPlainWithData = none →
      ps.find? isHtmlWithData = none →
      extractBody (some (.mk mt bd (some ps))) = firstNonEmptyExtract ps) ∧
    (∀ (ps qs : List MessagePart) (s : MessagePart),
      (∀ q ∈ ps, extractBodyPart q = "") → extractBodyPart s ≠ "" →
      firstNonEmptyExtract (ps ++ s :: qs) = extractBodyPart s) := by
  refine ⟨?_, ?_, ?_, ?_, ?_⟩
  · intro mt d ps hd
    have ht : truthyStr (some d) = some d := by simp [truthyStr, hd]
    cases ps with
    | none =>
      rw [extractBody, extractBodyPart, ht]
      rfl
    | some l =>
      rw [extractBody, extractBodyPart, ht]
      rfl
  · intro mt bd ps pp h1 h2
    rw [extractBody, extractBodyPart, h1, h2]
    rfl
  · intro mt bd ps ph h1 h2 h3
    rw [extractBody, extractBodyPart, h1, h2, h3]
    rfl
  · intro mt bd ps h1 h2 h3
    rw [extractBody, extractBodyPart, h1, h2, h3]
    rfl
  · intro ps qs s hall hs
    induction ps with
    | nil =>
      rw [List.nil_append, firstNonEmptyExtract]
      simp [hs]
    | cons q ps ih =>
      rw [List.cons_append, firstNonEmptyExtract]
      simp only [hall q (List.mem_cons_self q ps), if_pos rfl]
      exact ih fun p hp => hall p (List.mem_cons_of_mem q hp)

/-- Witness for C1 at a concrete input: a payload without inline data
whose single direct child is a plain-text part; extraction returns its
decoded content. -/
theorem c1_extract_body_witness :
    truthyStr (none : Option String) = none ∧
    ([MessagePart.mk (some "text/plain") (some "SGVsbG8=") none].find? isPlainWithData =
      some (.mk (some "text/plain") (some "SGVsbG8=") none)) ∧
    extractBody (some (.mk none none
        (some [.mk (some "text/plain") (some "SGVsbG8=") none]))) =
      decodeBase64 ((truthyStr (MessagePart.mk (some "text/plain") (some "SGVsbG8=")
        none).bodyData).getD "") :=
  ⟨rfl, rfl,
    c1_extract_body_policy.2.1 none none [.mk (some "text/plain") (some "SGVsbG8=") none]
      (.mk (some "text/plain") (some "SGVsbG8=") none) rfl rfl⟩

theorem charToSextet_sextetToChar : ∀ s, s < 64 → charToSextet (sextetToChar s) = s := by
  decide

theorem isB64Char_sextetToChar : ∀ s, s < 64 → isB64Char (sextetToChar s) = true := by
  decide

theorem urlSafeSwap_roundtrip : ∀ s, s < 64 →
    underscoreToSlash (dashToPlus
      (if sextetToChar s = '+' then '-' else if sextetToChar s = '/' then '_'
       else sextetToChar s)) = sextetToChar s := by
  decide

theorem b64EncodeSextets_lt :
    ∀ (bs : List Nat), (∀ b ∈ bs, b < 256) → ∀ s ∈ b64EncodeSextets bs, s < 64
  | [], _ => by simp [b64EncodeSextets]
  | [b0], h => by
    have h0 := h b0 (by simp)
    simp only [b64EncodeSextets, List.mem_cons, List.not_mem_nil, or_false]
    rintro s (rfl | rfl) <;> omega
  | [b0, b1], h => by
    have h0 := h b0 (by simp)
    have h1 := h b1 (by simp)
    simp only [b64EncodeSextets, List.mem_cons, List.not_mem_nil, or_false]
    rintro s (rfl | rfl | rfl) <;> omega
  | b0 :: b1 :: b2 :: rest, h => by
    have h0 := h b0 (by simp)
    have h1 := h b1 (by simp)
    have h2 := h b2 (by simp)
    have ih := b64EncodeSextets_lt rest fun b hb => h b (by simp [hb])
    simp only [b64EncodeSextets, List.mem_cons]
    rintro s (rfl | rfl | rfl | rfl | hmem)
    · omega
    · omega
    · omega
    · omega
    · exact ih s hmem

theorem b64DecodeSextets_encode :
    ∀ (bs : List Nat), (∀ b ∈ bs, b < 256) → b64DecodeSextets (b64EncodeSextets bs) = bs
  | [], _ => rfl
  | [b0], h => by
    have h0 := h b0 (by simp)
    simp only [b64EncodeSextets, b64DecodeSextets, List.cons.injEq, and_true]
    omega
  | [b0, b1], h => by
    have h0 := h b0 (by simp)
    have h1 := h b1 (by simp)
    simp only [b64EncodeSextets, b64DecodeSextets, List.cons.injEq, and_true]
    omega
  | b0 :: b1 :: b2 :: rest, h => by
    have h0 := h b0 (by simp)
    have h1 := h b1 (by simp)
    have h2 := h b2 (by simp)
    have ih := b64DecodeSextets_encode rest fun b hb => h b (by simp [hb])
    rw [b64EncodeSextets, b64DecodeSextets, ih]
    simp only [List.cons.injEq, and_true]
    refine ⟨by omega, by omega, by omega⟩

theorem filter_replicate_false {p : α → Bool} {a : α} (hp : p a = false) (n : Nat) :
    (List.replicate n a).filter p = [] := by
  induction n with
  | zero => rfl
  | succ n ih => simp [List.replicate_succ, List.filter_cons, hp, ih]

theorem nodeB64Decode_stdB64Encode (bs : List Nat) (h : ∀ b ∈ bs, b < 256) :
    nodeB64Decode (stdB64Encode bs) = bs := by
  rw [nodeB64Decode, stdB64Encode, List.filter_append]
  rw [filter_replicate_false (p := isB64Char) (by decide) _, List.append_nil]
  rw [List.filter_eq_self.mpr]
  · rw [List.map_map]
    have hmm : (b64EncodeSextets bs).map (charToSextet ∘ sextetToChar) = b64EncodeSextets bs := by
      simp only [Function.comp_def]
      rw [List.map_congr_left fun s hs =>
        charToSextet_sextetToChar s (b64EncodeSextets_lt bs h s hs)]
      exact List.map_id _
    rw [hmm, b64DecodeSextets_encode bs h]
  · intro c hc
    rw [List.mem_map] at hc
    obtain ⟨s, hs, rfl⟩ := hc
    exact isB64Char_sextetToChar s (b64EncodeSextets_lt bs h s hs)

theorem urlSafe_decode_bytes (bs : List Nat) (h : ∀ b ∈ bs, b < 256) :
    nodeB64Decode (((urlSafeB64Encode bs).map dashToPlus).map underscoreToSlash) = bs := by
  rw [urlSafeB64Encode, List.map_map, List.map_map]
  have hmap : (stdB64Encode bs).map
      ((underscoreToSlash ∘ dashToPlus) ∘ fun c =>
        if c = '+' then '-' else if c = '/' then '_' else c) = stdB64Encode bs := by
    rw [List.map_congr_left, List.map_id]
    intro c hc
    rw [stdB64Encode, List.mem_append] at hc
    rcases hc with hc | hc
    · rw [List.mem_map] at hc
      obtain ⟨s, hs, rfl⟩ := hc
      exact urlSafeSwap_roundtrip s (b64EncodeSextets_lt bs h s hs)
    · rw [List.eq_of_mem_replicate hc]
      decide
  rw [hmap, nodeB64Decode_stdB64Encode bs h]

theorem utf8DecodeAux_ascii :
    ∀ (fuel : Nat) (bs : List Nat), bs.length ≤ fuel → (∀ b ∈ bs, b < 128) →
      utf8DecodeAux fuel bs = bs.map Char.ofNat := by
  intro fuel
  induction fuel with
  | zero =>
    intro bs hlen _
    have hnil : bs = [] := List.length_eq_zero.mp (Nat.le_zero.mp hlen)
    subst hnil
    rfl
  | succ fuel ih =>
    intro bs hlen hb
    cases bs with
    | nil => rfl
    | cons b rest =>
      have h0 := hb b (by simp)
      have hstep : utf8DecodeAux (fuel + 1) (b :: rest) =
          Char.ofNat b :: utf8DecodeAux fuel rest := by
        rw [utf8DecodeAux.eq_def]
        simp only []
        rw [if_pos (by omega)]
      rw [hstep, List.map_cons,
        ih rest (by simp at hlen; omega) fun x hx => hb x (by simp [hx])]

/-- C6: round trip of the extractor's decode routine. At the byte level,
URL-safe base64 encoding (standard base64 with plus and slash replaced by
dash and underscore) followed by the decode routine's substitutions and
base64 decoding returns the original bytes, for every byte sequence — in
particular for the UTF-8 encoding of any string. At the string level, for
every printable-ASCII string, encoding its bytes and applying
`decodeBase64` returns the original string. -/
theorem c6_base64_roundtrip :
    (∀ (bs : List Nat), (∀ b ∈ bs, b < 256) →
      nodeB64Decode (((urlSafeB64Encode bs).map dashToPlus).map underscoreToSlash) = bs) ∧
    (∀ (s : String), (∀ c ∈ s.data, c.toNat < 128) →
      decodeBase64 (String.mk (urlSafeB64Encode (s.data.map Char.toNat))) = s) := by
  refine ⟨urlSafe_decode_bytes, ?_⟩
  intro s hs
  rw [decodeBase64]
  have hb : ∀ b ∈ s.data.map Char.toNat, b < 256 := by
    intro b hbm
    rw [List.mem_map] at hbm
    obtain ⟨c, hc, rfl⟩ := hbm
    have := hs c hc
    omega
  rw [show (String.mk (urlSafeB64Encode (s.data.map Char.toNat))).data =
      urlSafeB64Encode (s.data.map Char.toNat) from rfl]
  rw [urlSafe_decode_bytes _ hb, utf8DecodeString, utf8Decode]
  rw [utf8DecodeAux_ascii _ _ (le_refl _) (by
    intro b hbm
    rw [List.mem_map] at hbm
    obtain ⟨c, hc, rfl⟩ := hbm
    exact hs c hc)]
  rw [List.map_map]
  simp only [Function.comp_def]
  rw [List.map_congr_left fun c _ => Char.ofNat_toNat c]
  rw [show (fun c : Char => c) = id from rfl, List.map_id]

/-- Witness for C6 at concrete inputs: the bytes of `Hi!` and the string
`Hi!` itself. -/
theorem c6_base64_roundtrip_witness :
    (∀ b ∈ [72, 105, 33], b < 256) ∧
    (∀ c ∈ ("Hi!" : String).data, c.toNat < 128) ∧
    nodeB64Decode (((urlSafeB64Encode [72, 105, 33]).map dashToPlus).map underscoreToSlash) =
      [72, 105, 33] ∧
    decodeBase64 (String.mk (urlSafeB64Encode (("Hi!" : String).data.map Char.toNat))) =
      "Hi!" :=
  ⟨by decide, by decide,
    c6_base64_roundtrip.1 [72, 105, 33] (by decide),
    c6_base64_roundtrip.2 "Hi!" (by decide)⟩

/-- C5 (amended): every invocation of the two cited handlers returns a
well-formed envelope and no thrown failure escapes: any failure outcome
yields `{content: [text <classified message>]}` with no
`structuredContent`; a `docs_get_document` success yields a single text
content plus `structuredContent`; a `drive_get_file` success always yields
a content array whose first entry is text — but never a
`structuredContent` (see the counterexample to the claim as stated). -/
theorem c5_envelope_amended :
    (∀ (p : DocsGetParams) (e : JsError),
      docsGetDocumentHandler p (.error e) =
        { content := [.text (handleGoogleError e)], structuredContent := none }) ∧
    (∀ (p : DocsGetParams) (d : DocResponse),
      docsGetDocumentHandler p (.ok d) =
        { content := [.text (docsGetDocumentText p d)]
          structuredContent := some (docsGetDocumentOutput p d) }) ∧
    (∀ e : JsError,
      driveGetFileHandler (.error e) =
        { content := [.text (handleGoogleError e)], structuredContent := none }) ∧
    (∀ (meta : DriveFileMeta) (bytes : List Nat),
      (driveGetFileHandler (.ok (meta, bytes))).structuredContent = none ∧
      ∃ info rest, (driveGetFileHandler (.ok (meta, bytes))).content =
        ContentItem.text info :: rest) := by
  refine ⟨fun p e => rfl, fun p d => rfl, fun e => rfl, fun meta bytes => ?_⟩
  constructor
  · simp only [driveGetFileHandler]
    split_ifs <;> rfl
  · simp only [driveGetFileHandler]
    split_ifs <;> exact ⟨_, _, rfl⟩

/-- Counterexample to C5 as stated: a successful `drive_get_file`
invocation (here: a Google-Docs file exported to PDF, with empty content
bytes) returns no `structuredContent` and a two-entry content array, not
the claimed `{content: [{type: "text"}], structuredContent}` success
shape. -/
theorem c5_envelope_counterexample :
    (driveGetFileHandler (.ok (c5PdfMeta, []))).structuredContent = none ∧
    (driveGetFileHandler (.ok (c5PdfMeta, []))).content.length = 2 := by
  constructor <;> rfl

end GWS
